import Mathlib

/-!
# Verification of the bullwhip-effect simulator core (`src/app.py`)

The script's computational core (lines 33–48 of `app.py`) turns a base
demand, a demand-spike percentage and a per-stage safety-buffer percentage
into a per-stage amplified order series, a flat baseline series, an excess
inventory total and a trapped-capital figure; line 81 additionally displays
the final-stage overproduction ratio `((amplified[-1]/base_demand)-1)*100`.

We embed the arithmetic over `ℚ` (the Python source computes with ordinary
real arithmetic on slider values; we model the ideal real/rational
semantics).  The `for` loop of lines 42–44, which repeatedly multiplies an
accumulator by `(1 + safety_buffer/100)` and appends it, becomes the
recursion `amplifiedLoop`.  The ratio display divides by `base_demand`,
which in Python raises `ZeroDivisionError` when it is zero, so it is
modelled as an `Option ℚ` that is `none` exactly at `base_demand = 0`.
-/

/-- Line 33: `stages = ["Customer", "Pharmacy", "Wholesaler", "Distributor", "Factory"]`. -/
def stages : List String :=
  ["Customer", "Pharmacy", "Wholesaler", "Distributor", "Factory"]

/-- Line 34: `current_demand = base_demand * (1 + (demand_spike / 100))`. -/
def current_demand (base_demand demand_spike : ℚ) : ℚ :=
  base_demand * (1 + demand_spike / 100)

/-- Line 37: `baseline_values = [base_demand] * len(stages)`. -/
def baseline_values (st : List String) (base_demand : ℚ) : List ℚ :=
  List.replicate st.length base_demand

/-- Lines 41–44: the loop
`temp_val = current_demand; for i in range(len(stages) - 1): temp_val = temp_val * (1 + (safety_buffer / 100)); amplified_values.append(temp_val)`.
`amplifiedLoop sb t k` is the list of the `k` values appended by the loop
when the accumulator starts at `t`. -/
def amplifiedLoop (safety_buffer temp_val : ℚ) : ℕ → List ℚ
  | 0 => []
  | k + 1 =>
      temp_val * (1 + safety_buffer / 100) ::
        amplifiedLoop safety_buffer (temp_val * (1 + safety_buffer / 100)) k

/-- Lines 40–44: `amplified_values = [current_demand]` followed by the loop. -/
def amplified_values (st : List String) (base_demand demand_spike safety_buffer : ℚ) :
    List ℚ :=
  current_demand base_demand demand_spike ::
    amplifiedLoop safety_buffer (current_demand base_demand demand_spike) (st.length - 1)

/-- Line 47: `total_excess_inventory = sum(amplified_values) - sum(baseline_values)`. -/
def total_excess_inventory (st : List String) (base_demand demand_spike safety_buffer : ℚ) :
    ℚ :=
  (amplified_values st base_demand demand_spike safety_buffer).sum -
    (baseline_values st base_demand).sum

/-- Line 48: `trapped_capital = total_excess_inventory * unit_price`. -/
def trapped_capital (st : List String)
    (unit_price base_demand demand_spike safety_buffer : ℚ) : ℚ :=
  total_excess_inventory st base_demand demand_spike safety_buffer * unit_price

/-- Line 81: the displayed final-stage overproduction percentage
`((amplified_values[-1] / base_demand) - 1) * 100`.  Python raises
`ZeroDivisionError` when `base_demand = 0`, modelled by `none`. -/
def final_overproduction_pct (st : List String)
    (base_demand demand_spike safety_buffer : ℚ) : Option ℚ :=
  if base_demand = 0 then none
  else
    some (((amplified_values st base_demand demand_spike safety_buffer).getLast! /
      base_demand - 1) * 100)

/-- The values the script computes from one set of slider inputs. -/
structure SimResult where
  baseline : List ℚ
  amplified : List ℚ
  excess : ℚ
  trapped : ℚ
  overproduction_pct : Option ℚ
  deriving Repr, DecidableEq

/-- One top-to-bottom evaluation of the script's logic (lines 33–48 and the
line-81 display) at the hard-coded `stages` list. -/
def run_simulation (unit_price base_demand demand_spike safety_buffer : ℚ) : SimResult :=
  { baseline := baseline_values stages base_demand
    amplified := amplified_values stages base_demand demand_spike safety_buffer
    excess := total_excess_inventory stages base_demand demand_spike safety_buffer
    trapped := trapped_capital stages unit_price base_demand demand_spike safety_buffer
    overproduction_pct := final_overproduction_pct stages base_demand demand_spike safety_buffer }

/-! ## Helper lemmas about the loop -/

theorem amplifiedLoop_length (sb : ℚ) : ∀ (k : ℕ) (t : ℚ), (amplifiedLoop sb t k).length = k
  | 0, _ => rfl
  | k + 1, t => by
      simp [amplifiedLoop, amplifiedLoop_length sb k]

theorem amplifiedLoop_eq_map (sb : ℚ) :
    ∀ (k : ℕ) (t : ℚ),
      amplifiedLoop sb t k = (List.range k).map (fun j => t * (1 + sb / 100) ^ (j + 1))
  | 0, _ => rfl
  | k + 1, t => by
      rw [List.range_succ_eq_map]
      simp only [amplifiedLoop, List.map_cons, List.map_map,
        amplifiedLoop_eq_map sb k]
      rw [List.cons_eq_cons]
      refine ⟨by ring, List.map_congr_left fun j _ => ?_⟩
      simp only [Function.comp_apply, Nat.succ_eq_add_one]
      ring

theorem amplified_values_length (st : List String) (bd ds sb : ℚ) :
    (amplified_values st bd ds sb).length = st.length - 1 + 1 := by
  simp [amplified_values, amplifiedLoop_length]

theorem amplified_values_eq_map (st : List String) (bd ds sb : ℚ) :
    amplified_values st bd ds sb =
      (List.range (st.length - 1 + 1)).map
        (fun i => bd * (1 + ds / 100) * (1 + sb / 100) ^ i) := by
  rw [List.range_succ_eq_map]
  simp only [amplified_values, amplifiedLoop_eq_map, List.map_cons, List.map_map,
    pow_zero, mul_one, current_demand]
  rw [List.cons_eq_cons]
  refine ⟨rfl, List.map_congr_left fun j _ => ?_⟩
  simp [Function.comp_apply, Nat.succ_eq_add_one]

theorem amplified_values_getElem? (st : List String) (bd ds sb : ℚ) (i : ℕ)
    (hi : i < st.length - 1 + 1) :
    (amplified_values st bd ds sb)[i]? =
      some (bd * (1 + ds / 100) * (1 + sb / 100) ^ i) := by
  rw [amplified_values_eq_map, List.getElem?_map, List.getElem?_range hi, Option.map_some']

theorem amplifiedLoop_getLastD (sb : ℚ) :
    ∀ (k : ℕ) (t : ℚ), (amplifiedLoop sb t k).getLastD t = t * (1 + sb / 100) ^ k
  | 0, t => by simp [amplifiedLoop]
  | k + 1, t => by
      rw [amplifiedLoop, List.getLastD_cons,
        amplifiedLoop_getLastD sb k (t * (1 + sb / 100))]
      ring

theorem amplified_values_getLast! (st : List String) (bd ds sb : ℚ) :
    (amplified_values st bd ds sb).getLast! =
      bd * (1 + ds / 100) * (1 + sb / 100) ^ (st.length - 1) := by
  rw [amplified_values, List.getLast!_cons, amplifiedLoop_getLastD, current_demand]

theorem baseline_values_sum (st : List String) (bd : ℚ) :
    (baseline_values st bd).sum = st.length * bd := by
  rw [baseline_values, List.sum_replicate, nsmul_eq_mul]

theorem amplifiedLoop_sum_le (sb m : ℚ) (hsb : 0 ≤ sb) (hm : 0 ≤ m) :
    ∀ (k : ℕ) (t : ℚ), m ≤ t → (k : ℚ) * m ≤ (amplifiedLoop sb t k).sum
  | 0, t, _ => by simp [amplifiedLoop]
  | k + 1, t, ht => by
      have hf : (1 : ℚ) ≤ 1 + sb / 100 := by linarith
      have ht0 : 0 ≤ t := le_trans hm ht
      have htf : t ≤ t * (1 + sb / 100) := le_mul_of_one_le_right ht0 hf
      have ih := amplifiedLoop_sum_le sb m hsb hm k (t * (1 + sb / 100)) (le_trans ht htf)
      rw [amplifiedLoop, List.sum_cons]
      push_cast
      linarith

/-! ## Claim theorems -/

/-- **C1** For every positive `baseDemand`, all real `demandSpikePct` and
`safetyBufferPct`, and every stage index `i < len(stages)`, the amplified
series satisfies `amplified[i] = baseDemand * (1 + demandSpikePct/100) *
(1 + safetyBufferPct/100)^i`; equivalently `amplified[0] = baseDemand *
(1 + demandSpikePct/100)` and each later element is the previous element
times `(1 + safetyBufferPct/100)`. -/
theorem amplified_closed_form (st : List String) (bd ds sb : ℚ) (hbd : 0 < bd) :
    (∀ i, i < st.length →
      (amplified_values st bd ds sb)[i]? =
        some (bd * (1 + ds / 100) * (1 + sb / 100) ^ i)) ∧
    (amplified_values st bd ds sb)[0]? = some (bd * (1 + ds / 100)) ∧
    (∀ i a, (amplified_values st bd ds sb)[i]? = some a → i + 1 < st.length →
      (amplified_values st bd ds sb)[i + 1]? = some (a * (1 + sb / 100))) := by
  refine ⟨fun i hi => ?_, ?_, fun i a ha hi => ?_⟩
  · exact amplified_values_getElem? st bd ds sb i (by omega)
  · rw [amplified_values_getElem? st bd ds sb 0 (by omega)]
    norm_num
  · rw [amplified_values_getElem? st bd ds sb i (by omega)] at ha
    rw [amplified_values_getElem? st bd ds sb (i + 1) (by omega)]
    have haa : a = bd * (1 + ds / 100) * (1 + sb / 100) ^ i := (Option.some.inj ha).symm
    subst haa
    exact congrArg some (by rw [pow_succ]; ring)

/-- **C1** witness: the closed form evaluated on the script's stage list at
`baseDemand = 100`, `demandSpikePct = 10`, `safetyBufferPct = 20`, `i = 2`. -/
theorem amplified_closed_form_witness :
    (amplified_values stages 100 10 20)[2]? =
      some (100 * (1 + 10 / 100) * (1 + 20 / 100) ^ 2) ∧
    (amplified_values stages 100 10 20)[0]? = some (100 * (1 + 10 / 100)) := by
  have h := amplified_closed_form stages 100 10 20 (by norm_num)
  exact ⟨h.1 2 (by simp [stages]), h.2.1⟩

/-- **C4** (amended) For inputs whose start value is non-negative
(`baseDemand ≥ 0` and `demandSpikePct ≥ -100`): if `safetyBufferPct ≥ 0`
the amplified series is non-decreasing between adjacent stages, and if
`-100 ≤ safetyBufferPct < 0` it is non-increasing between adjacent
stages. -/
theorem amplified_monotone (st : List String) (bd ds sb : ℚ)
    (hbd : 0 ≤ bd) (hds : -100 ≤ ds) :
    (0 ≤ sb → ∀ i a b, (amplified_values st bd ds sb)[i]? = some a →
      (amplified_values st bd ds sb)[i + 1]? = some b → a ≤ b) ∧
    (-100 ≤ sb → sb < 0 → ∀ i a b, (amplified_values st bd ds sb)[i]? = some a →
      (amplified_values st bd ds sb)[i + 1]? = some b → b ≤ a) := by
  have hc : 0 ≤ bd * (1 + ds / 100) := mul_nonneg hbd (by linarith)
  constructor
  · intro hsb i a b ha hb
    have hib : i + 1 < (amplified_values st bd ds sb).length :=
      (List.getElem?_eq_some.mp hb).1
    rw [amplified_values_length] at hib
    rw [amplified_values_getElem? st bd ds sb i (by omega)] at ha
    rw [amplified_values_getElem? st bd ds sb (i + 1) hib] at hb
    have haa : a = bd * (1 + ds / 100) * (1 + sb / 100) ^ i := (Option.some.inj ha).symm
    have hbb : b = bd * (1 + ds / 100) * (1 + sb / 100) ^ (i + 1) := (Option.some.inj hb).symm
    subst haa; subst hbb
    have hf1 : (1 : ℚ) ≤ 1 + sb / 100 := by linarith
    have hpow : 0 ≤ bd * (1 + ds / 100) * (1 + sb / 100) ^ i :=
      mul_nonneg hc (pow_nonneg (by linarith) i)
    calc bd * (1 + ds / 100) * (1 + sb / 100) ^ i
        ≤ bd * (1 + ds / 100) * (1 + sb / 100) ^ i * (1 + sb / 100) :=
          le_mul_of_one_le_right hpow hf1
      _ = bd * (1 + ds / 100) * (1 + sb / 100) ^ (i + 1) := by rw [pow_succ]; ring
  · intro hsb hsb' i a b ha hb
    have hib : i + 1 < (amplified_values st bd ds sb).length :=
      (List.getElem?_eq_some.mp hb).1
    rw [amplified_values_length] at hib
    rw [amplified_values_getElem? st bd ds sb i (by omega)] at ha
    rw [amplified_values_getElem? st bd ds sb (i + 1) hib] at hb
    have haa : a = bd * (1 + ds / 100) * (1 + sb / 100) ^ i := (Option.some.inj ha).symm
    have hbb : b = bd * (1 + ds / 100) * (1 + sb / 100) ^ (i + 1) := (Option.some.inj hb).symm
    subst haa; subst hbb
    have hf1 : 1 + sb / 100 ≤ (1 : ℚ) := by linarith
    have hpow : 0 ≤ bd * (1 + ds / 100) * (1 + sb / 100) ^ i :=
      mul_nonneg hc (pow_nonneg (by linarith) i)
    calc bd * (1 + ds / 100) * (1 + sb / 100) ^ (i + 1)
        = bd * (1 + ds / 100) * (1 + sb / 100) ^ i * (1 + sb / 100) := by rw [pow_succ]; ring
      _ ≤ bd * (1 + ds / 100) * (1 + sb / 100) ^ i :=
          mul_le_of_le_one_right hpow hf1

/-- **C4** witness: at `baseDemand = 100`, `demandSpikePct = 10` the
non-decreasing branch applies with `safetyBufferPct = 20` between stages 0
and 1, and the non-increasing branch with `safetyBufferPct = -10`. -/
theorem amplified_monotone_witness :
    ((110 : ℚ) ≤ 132 ∧ (99 : ℚ) ≤ 110) := by
  have h₁ := (amplified_monotone stages 100 10 20 (by norm_num) (by norm_num)).1
    (by norm_num) 0 110 132
  have h₂ := (amplified_monotone stages 100 10 (-10) (by norm_num) (by norm_num)).2
    (by norm_num) (by norm_num) 0 110 99
  constructor
  · apply h₁
    · rw [amplified_values_getElem? stages 100 10 20 0 (by simp [stages])]; norm_num
    · rw [amplified_values_getElem? stages 100 10 20 1 (by simp [stages])]; norm_num
  · apply h₂
    · rw [amplified_values_getElem? stages 100 10 (-10) 0 (by simp [stages])]; norm_num
    · rw [amplified_values_getElem? stages 100 10 (-10) 1 (by simp [stages])]; norm_num

/-- **C4** counterexample to the claim as stated: with the valid
`baseDemand = 100` but `demandSpikePct = -200` the start value is negative,
so with `safetyBufferPct = 20 ≥ 0` the series decreases from stage 0 to
stage 1; and with `demandSpikePct = 0` and `safetyBufferPct = -200 < 0` the
series increases from stage 1 to stage 2. -/
theorem amplified_monotone_cx :
    ((amplified_values stages 100 (-200) 20)[0]? = some ((-100 : ℚ)) ∧
     (amplified_values stages 100 (-200) 20)[1]? = some ((-120 : ℚ)) ∧
     ¬ ((-100 : ℚ) ≤ -120)) ∧
    ((amplified_values stages 100 0 (-200))[1]? = some ((-100 : ℚ)) ∧
     (amplified_values stages 100 0 (-200))[2]? = some ((100 : ℚ)) ∧
     ¬ ((100 : ℚ) ≤ -100)) := by
  refine ⟨⟨?_, ?_, by norm_num⟩, ⟨?_, ?_, by norm_num⟩⟩
  · rw [amplified_values_getElem? stages 100 (-200) 20 0 (by simp [stages])]; norm_num
  · rw [amplified_values_getElem? stages 100 (-200) 20 1 (by simp [stages])]; norm_num
  · rw [amplified_values_getElem? stages 100 0 (-200) 1 (by simp [stages])]; norm_num
  · rw [amplified_values_getElem? stages 100 0 (-200) 2 (by simp [stages])]; norm_num

/-- **C3** Scenario A: for the 5-stage chain with `baseDemand = 100`,
`demandSpikePct = 10`, `safetyBufferPct = 20`, `unitPrice = 5`, the script
produces `amplified = [110, 132, 158.4, 190.08, 228.096]`,
`baseline = [100, 100, 100, 100, 100]`, `excessInventory = 318.576`,
`trappedCapital = 1592.88` and a final overproduction percentage of
`128.096`, which is within `0.1` of the quoted `128.1 %`. -/
theorem scenario_a :
    run_simulation 5 100 10 20 =
      { baseline := [100, 100, 100, 100, 100]
        amplified := [110, 132, 158.4, 190.08, 228.096]
        excess := 318.576
        trapped := 1592.88
        overproduction_pct := some 128.096 } ∧
    |(run_simulation 5 100 10 20).overproduction_pct.getD 0 - 128.1| < 1 / 10 := by
  have hlen : stages.length = 5 := by simp [stages]
  have hmain : run_simulation 5 100 10 20 =
      { baseline := [100, 100, 100, 100, 100]
        amplified := [110, 132, 158.4, 190.08, 228.096]
        excess := 318.576
        trapped := 1592.88
        overproduction_pct := some 128.096 } := by
    simp only [run_simulation, SimResult.mk.injEq]
    refine ⟨?_, ?_, ?_, ?_, ?_⟩
    · simp [baseline_values, hlen, List.replicate]
    · rw [amplified_values_eq_map, hlen]
      norm_num [List.range_succ]
    · rw [total_excess_inventory, amplified_values_eq_map, baseline_values_sum, hlen]
      norm_num [List.range_succ]
    · rw [trapped_capital, total_excess_inventory, amplified_values_eq_map,
        baseline_values_sum, hlen]
      norm_num [List.range_succ]
    · rw [final_overproduction_pct, if_neg (by norm_num : ¬ ((100 : ℚ) = 0)),
        amplified_values_getLast!, hlen]
      norm_num
  refine ⟨hmain, ?_⟩
  rw [hmain]
  norm_num
  rw [abs_of_pos (by norm_num : (0 : ℚ) < 1 / 250)]
  norm_num

/-- **C2** counterexample: the script contains no `InvalidInputError` and
performs no validation; at `baseDemand = 0` it computes the full result
(all-zero series, `excessInventory = 0`, `trappedCapital = 0`) instead of
raising, and only the line-81 ratio display fails (division by zero,
modelled as `none`). -/
theorem invalid_input_cx :
    run_simulation 5 0 10 20 =
      { baseline := [0, 0, 0, 0, 0]
        amplified := [0, 0, 0, 0, 0]
        excess := 0
        trapped := 0
        overproduction_pct := none } := by
  have hlen : stages.length = 5 := by simp [stages]
  simp only [run_simulation, SimResult.mk.injEq]
  refine ⟨?_, ?_, ?_, ?_, ?_⟩
  · simp [baseline_values, hlen, List.replicate]
  · rw [amplified_values_eq_map, hlen]
    norm_num [List.range_succ]
  · rw [total_excess_inventory, amplified_values_eq_map, baseline_values_sum, hlen]
    norm_num [List.range_succ]
  · rw [trapped_capital, total_excess_inventory, amplified_values_eq_map,
      baseline_values_sum, hlen]
    norm_num [List.range_succ]
  · rw [final_overproduction_pct, if_pos rfl]

/-- **C2** (amended) The script performs no input validation and defines no
`InvalidInputError`: for every input (including `baseDemand ≤ 0`) the series
and the financial totals are computed, and the only failure mode is the
final-overproduction display, which divides by `baseDemand` and fails
exactly when `baseDemand = 0`. -/
theorem no_validation (up bd ds sb : ℚ) :
    ((run_simulation up bd ds sb).overproduction_pct = none ↔ bd = 0) ∧
    (run_simulation up bd ds sb).amplified.length = stages.length ∧
    (run_simulation up bd ds sb).baseline.length = stages.length ∧
    (run_simulation up bd ds sb).excess =
      (run_simulation up bd ds sb).amplified.sum -
        (run_simulation up bd ds sb).baseline.sum ∧
    (run_simulation up bd ds sb).trapped = (run_simulation up bd ds sb).excess * up := by
  refine ⟨?_, ?_, ?_, rfl, rfl⟩
  · simp only [run_simulation, final_overproduction_pct]
    by_cases h : bd = 0
    · simp [h]
    · simp [h]
  · show (amplified_values stages bd ds sb).length = stages.length
    rw [amplified_values_length]
    simp [stages]
  · show (baseline_values stages bd).length = stages.length
    rw [baseline_values, List.length_replicate]

/-- **C5** When `demandSpikePct = 0` and `safetyBufferPct = 0`, for every
valid `baseDemand` and `unitPrice` the amplified series equals the baseline
series, `excessInventory = 0` and `trappedCapital = 0`. -/
theorem zero_effect_identity (st : List String) (bd up : ℚ)
    (hst : 1 ≤ st.length) (hbd : 0 < bd) (hup : 0 < up) :
    amplified_values st bd 0 0 = baseline_values st bd ∧
    total_excess_inventory st bd 0 0 = 0 ∧
    trapped_capital st up bd 0 0 = 0 := by
  have h1 : amplified_values st bd 0 0 = baseline_values st bd := by
    rw [amplified_values_eq_map, baseline_values]
    have hL : st.length - 1 + 1 = st.length := by omega
    rw [hL]
    simp
  have h2 : total_excess_inventory st bd 0 0 = 0 := by
    rw [total_excess_inventory, h1, sub_self]
  exact ⟨h1, h2, by rw [trapped_capital, h2, zero_mul]⟩

/-- **C5** witness: the identity evaluated on the script's stage list at
`baseDemand = 200`, `unitPrice = 100` (the slider defaults). -/
theorem zero_effect_identity_witness :
    amplified_values stages 200 0 0 = baseline_values stages 200 ∧
    total_excess_inventory stages 200 0 0 = 0 ∧
    trapped_capital stages 100 200 0 0 = 0 :=
  zero_effect_identity stages 200 100 (by simp [stages]) (by norm_num) (by norm_num)

/-- **C6** `excessInventory` equals `sum(amplified) - sum(baseline)`, and
for `safetyBufferPct ≥ 0`, `demandSpikePct ≥ 0` and `baseDemand > 0` it is
non-negative. -/
theorem excess_inventory_nonneg (st : List String) (bd ds sb : ℚ)
    (hbd : 0 < bd) (hds : 0 ≤ ds) (hsb : 0 ≤ sb) :
    total_excess_inventory st bd ds sb =
      (amplified_values st bd ds sb).sum - (baseline_values st bd).sum ∧
    0 ≤ total_excess_inventory st bd ds sb := by
  refine ⟨rfl, ?_⟩
  rw [total_excess_inventory, baseline_values_sum, amplified_values, List.sum_cons]
  have hcb : bd ≤ current_demand bd ds := by
    rw [current_demand]
    exact le_mul_of_one_le_right hbd.le (by linarith)
  have hloop := amplifiedLoop_sum_le sb bd hsb hbd.le (st.length - 1)
    (current_demand bd ds) hcb
  have hL : (st.length : ℚ) ≤ ((st.length - 1 : ℕ) : ℚ) + 1 := by
    exact_mod_cast (by omega : st.length ≤ st.length - 1 + 1)
  have hmul : (st.length : ℚ) * bd ≤ (((st.length - 1 : ℕ) : ℚ) + 1) * bd :=
    mul_le_mul_of_nonneg_right hL hbd.le
  linarith

/-- **C6** witness: non-negative excess at `baseDemand = 100`,
`demandSpikePct = 10`, `safetyBufferPct = 20` on the script's stage list. -/
theorem excess_inventory_nonneg_witness :
    total_excess_inventory stages 100 10 20 =
      (amplified_values stages 100 10 20).sum - (baseline_values stages 100).sum ∧
    0 ≤ total_excess_inventory stages 100 10 20 :=
  excess_inventory_nonneg stages 100 10 20 (by norm_num) (by norm_num) (by norm_num)

/-- **C7** `trappedCapital` is linear in `unitPrice`: scaling the unit
price by any `c` scales the trapped capital by `c`, and
`trappedCapital = excessInventory * unitPrice`. -/
theorem trapped_capital_linear (st : List String) (up bd ds sb c : ℚ) :
    trapped_capital st (c * up) bd ds sb = c * trapped_capital st up bd ds sb ∧
    trapped_capital st up bd ds sb = total_excess_inventory st bd ds sb * up := by
  constructor
  · rw [trapped_capital, trapped_capital]; ring
  · rfl

/-- **C8** For `baseDemand > 0` the displayed final-stage overproduction
value is `((amplified[last] / baseDemand) - 1) * 100`: a percentage
anchored at the pre-spike `baseDemand`, so it equals
`((1 + demandSpikePct/100) * (1 + safetyBufferPct/100)^(len - 1) - 1) * 100`
(the spike factor itself is part of the reported overproduction). -/
theorem final_pct_anchored (st : List String) (bd ds sb : ℚ) (hbd : 0 < bd) :
    final_overproduction_pct st bd ds sb =
      some (((amplified_values st bd ds sb).getLast! / bd - 1) * 100) ∧
    final_overproduction_pct st bd ds sb =
      some (((1 + ds / 100) * (1 + sb / 100) ^ (st.length - 1) - 1) * 100) := by
  have hne : bd ≠ 0 := ne_of_gt hbd
  constructor
  · rw [final_overproduction_pct, if_neg hne]
  · rw [final_overproduction_pct, if_neg hne, amplified_values_getLast!]
    congr 1
    field_simp
    ring

/-- **C8** witness: the anchored ratio at `baseDemand = 100`,
`demandSpikePct = 10`, `safetyBufferPct = 20` on the script's stage list. -/
theorem final_pct_anchored_witness :
    final_overproduction_pct stages 100 10 20 =
      some (((amplified_values stages 100 10 20).getLast! / 100 - 1) * 100) ∧
    final_overproduction_pct stages 100 10 20 =
      some (((1 + 10 / 100) * (1 + 20 / 100) ^ (stages.length - 1) - 1) * 100) :=
  final_pct_anchored stages 100 10 20 (by norm_num)

/-- **C9** `unitPrice` does not influence the series or the unit totals:
two runs that differ only in the unit price have identical baseline series,
amplified series, excess inventory and overproduction display, and the unit
price enters only through `trappedCapital = excessInventory * unitPrice`. -/
theorem unit_price_noninterference (p q bd ds sb : ℚ) :
    (run_simulation p bd ds sb).baseline = (run_simulation q bd ds sb).baseline ∧
    (run_simulation p bd ds sb).amplified = (run_simulation q bd ds sb).amplified ∧
    (run_simulation p bd ds sb).excess = (run_simulation q bd ds sb).excess ∧
    (run_simulation p bd ds sb).overproduction_pct =
      (run_simulation q bd ds sb).overproduction_pct ∧
    (run_simulation p bd ds sb).trapped =
      total_excess_inventory stages bd ds sb * p :=
  ⟨rfl, rfl, rfl, rfl, rfl⟩

/-- **C10** The computation is homogeneous of degree 1 in `baseDemand`:
scaling `baseDemand` by `c > 0` scales every element of both series, the
excess inventory and the trapped capital by exactly `c`, and leaves the
final overproduction display unchanged. -/
theorem homogeneous_in_base_demand (up bd ds sb c : ℚ) (hc : 0 < c) :
    (run_simulation up (c * bd) ds sb).baseline =
      (run_simulation up bd ds sb).baseline.map (fun x => c * x) ∧
    (run_simulation up (c * bd) ds sb).amplified =
      (run_simulation up bd ds sb).amplified.map (fun x => c * x) ∧
    (run_simulation up (c * bd) ds sb).excess =
      c * (run_simulation up bd ds sb).excess ∧
    (run_simulation up (c * bd) ds sb).trapped =
      c * (run_simulation up bd ds sb).trapped ∧
    (run_simulation up (c * bd) ds sb).overproduction_pct =
      (run_simulation up bd ds sb).overproduction_pct := by
  have hamp : amplified_values stages (c * bd) ds sb =
      (amplified_values stages bd ds sb).map (fun x => c * x) := by
    rw [amplified_values_eq_map, amplified_values_eq_map, List.map_map]
    refine List.map_congr_left fun i _ => ?_
    simp only [Function.comp_apply]
    ring
  have hbase : baseline_values stages (c * bd) =
      (baseline_values stages bd).map (fun x => c * x) := by
    rw [baseline_values, baseline_values, List.map_replicate]
  have hsum : ∀ l : List ℚ, (l.map (fun x => c * x)).sum = c * l.sum := by
    intro l
    simpa using List.sum_map_mul_left l (fun x => x) c
  have hexcess : total_excess_inventory stages (c * bd) ds sb =
      c * total_excess_inventory stages bd ds sb := by
    rw [total_excess_inventory, total_excess_inventory, hamp, hbase, hsum, hsum]
    ring
  refine ⟨hbase, hamp, hexcess, ?_, ?_⟩
  · show trapped_capital stages up (c * bd) ds sb =
      c * trapped_capital stages up bd ds sb
    rw [trapped_capital, trapped_capital, hexcess]
    ring
  · show final_overproduction_pct stages (c * bd) ds sb =
      final_overproduction_pct stages bd ds sb
    by_cases h : bd = 0
    · rw [final_overproduction_pct, final_overproduction_pct]
      simp [h]
    · have hcb : c * bd ≠ 0 := mul_ne_zero (ne_of_gt hc) h
      rw [final_overproduction_pct, final_overproduction_pct, if_neg hcb, if_neg h,
        amplified_values_getLast!, amplified_values_getLast!]
      congr 1
      field_simp
      ring

/-- **C10** witness: the scaling law at `unitPrice = 5`,
`baseDemand = 100`, `demandSpikePct = 10`, `safetyBufferPct = 20`,
`c = 2`. -/
theorem homogeneous_in_base_demand_witness :
    (run_simulation 5 (2 * 100) 10 20).baseline =
      (run_simulation 5 100 10 20).baseline.map (fun x => 2 * x) ∧
    (run_simulation 5 (2 * 100) 10 20).amplified =
      (run_simulation 5 100 10 20).amplified.map (fun x => 2 * x) ∧
    (run_simulation 5 (2 * 100) 10 20).excess =
      2 * (run_simulation 5 100 10 20).excess ∧
    (run_simulation 5 (2 * 100) 10 20).trapped =
      2 * (run_simulation 5 100 10 20).trapped ∧
    (run_simulation 5 (2 * 100) 10 20).overproduction_pct =
      (run_simulation 5 100 10 20).overproduction_pct :=
  homogeneous_in_base_demand 5 100 10 20 2 (by norm_num)
